import Mathlib

/-!
Verification development for the pi-consult RPC session engine
(agent-kit repository, source file `pi/bin/pi-consult.ts`).

The definitions below are a shallow embedding of that script:
  * JavaScript numbers are modelled as exact rationals (token counts and
    dollar costs in the claims are small decimals, which rationals represent
    exactly);
  * the filesystem-backed session registry is modelled as a pair of typed
    finite maps keyed by session id (the real store keys files by
    `<id>.info.json` / `<id>.jsonl`, and every operation validates the id
    before touching the filesystem, so valid ids map to paths injectively);
  * fallible operations return `Except CmdError`;
  * the single-threaded event loop of `sendToAgent` is modelled as a fold of
    an explicit handler over the decoded event list, and the sliding
    inactivity timer as a deadline recurrence over timestamped events.
-/

namespace PiConsult

/-- Usage `cost` object carried on an assistant message
(`msg.usage.cost?.total`); `total` is `none` when the field is absent. -/
structure Cost where
  total : Option ℚ := none
deriving Repr

/-- The `usage` object of a message (`msg.usage`); each field is `none` when
absent in the JSON, matching the `|| 0` guards at the use sites. -/
structure MsgUsage where
  input : Option ℚ := none
  output : Option ℚ := none
  cost : Option Cost := none
deriving Repr

/-- One element of an array-shaped message content. `type` is `none` when the
part is null or has no `type` field; `text` is `some s` exactly when the JS
`text` field is present and is a string (the `typeof c.text === "string"`
check of `extractTextFromMessage`). -/
structure ContentPart where
  type : Option String := none
  text : Option String := none
deriving Repr

/-- Shape of a message `content` field: a plain string, an array of typed
parts, or anything else. -/
inductive MsgContent where
  | str (s : String)
  | parts (l : List ContentPart)
  | other
deriving Repr

/-- A message of the terminal message list delivered on `agent_end`. -/
structure Message where
  role : String
  content : MsgContent := .other
  usage : Option MsgUsage := none
  errorMessage : Option String := none
deriving Repr

/-- The accumulated usage of `SendResult` (`{input, output, cost}`). -/
structure SendUsage where
  input : ℚ
  output : ℚ
  cost : ℚ
deriving Repr, DecidableEq

/-- The `assistantMessageEvent` payload of a `message_update` event. -/
inductive AssistantMessageEvent where
  | text_delta (delta : String)
  | thinking_delta
  | error (reason : Option String)
deriving Repr

/-- Decoded protocol events of the line-delimited JSON stream read by
`sendToAgent` (the `rl.on("line", ...)` handler). `message_update` carries
`none` when its `assistantMessageEvent` has an unrecognized shape; `other`
stands for any unrecognized event tag. -/
inductive Event where
  | response (id : Option String) (success : Bool) (error : Option String)
  | message_update (delta : Option AssistantMessageEvent)
  | message_end (errorMessage : Option String)
  | tool_execution_start (toolName : String) (args : String)
  | tool_execution_update
  | tool_execution_end
  | agent_end (messages : List Message)
  | hook_error (error : Option String)
  | other
deriving Repr

/-! ### JavaScript `String.split` with a one-character separator -/

/-- Splitting a character list at a separator character, with the semantics of
JavaScript `s.split(sep)` for a one-character separator: always returns at
least one group, and a trailing separator yields a trailing empty group. -/
def splitChar (sep : Char) : List Char → List (List Char)
  | [] => [[]]
  | c :: rest =>
    if c = sep then [] :: splitChar sep rest
    else
      match splitChar sep rest with
      | [] => [[c]]
      | g :: gs => (c :: g) :: gs

/-- JavaScript `s.split(sep)` for a one-character separator. -/
def jsSplit (s : String) (sep : Char) : List String :=
  (splitChar sep s.data).map fun l => String.mk l

/-- JavaScript `s.trim()`, on the character list: drop whitespace from the
front, then from the back. -/
def trimChars (l : List Char) : List Char :=
  ((l.dropWhile Char.isWhitespace).reverse.dropWhile Char.isWhitespace).reverse

/-- JavaScript `s.trim()`: the string without leading and trailing
whitespace. -/
def jsTrim (s : String) : String :=
  String.mk (trimChars s.data)

/-! ### Session registry (SessionStore) -/

/-- Persisted session record (`SessionInfo` plus the `status` / `closedAt`
fields that `closeSession` attaches via `(info as any)`). A freshly created
record has `status = none` and `closedAt = none`: the JSON written by
`cmdStart` has no such keys. `thinking = none` models an absent or empty
(falsy) `thinking` option. -/
structure SessionInfo where
  id : String
  model : String
  provider : String
  modelId : String
  thinking : Option String := none
  tools : String
  sessionFile : String
  createdAt : Nat
  status : Option String := none
  closedAt : Option Nat := none
deriving Repr, DecidableEq

/-- Errors thrown by the session commands. -/
inductive CmdError where
  | invalidId (s : String)
  | invalidName (s : String)
  | nameTooLong (s : String)
  | notFound (s : String)
  | alreadyExists (s : String)
  | invalidModel (s : String)
deriving Repr, DecidableEq

/-- The session directory, as a typed store: `info id` is the parsed content
of `<id>.info.json` (or `none` when that file is absent) and `transcript id`
is the content of `<id>.jsonl` (or `none` when absent). -/
@[ext]
structure FS where
  info : String → Option SessionInfo
  transcript : String → Option String

/-- The empty session directory. -/
def emptyFS : FS := { info := fun _ => none, transcript := fun _ => none }

/-- The regex test `/^[a-zA-Z0-9_-]+$/.test(sessionId)` of
`validateSessionId`: nonempty, and every character alphanumeric, underscore
or hyphen. -/
def validateSessionId (s : String) : Bool :=
  decide (s ≠ "") && s.data.all fun c => c.isAlphanum || c = '_' || c = '-'

/-- `path.join(dir, id + ".jsonl")` of `getSessionFilePath`. -/
def getSessionFilePath (sessionId : String) : String :=
  "/tmp/pi-consult-sessions/" ++ sessionId ++ ".jsonl"

/-- `saveSessionInfo`: write the record at the path derived from its own
`id` field. -/
def saveSessionInfo (fs : FS) (info : SessionInfo) : FS :=
  { fs with info := Function.update fs.info info.id (some info) }

/-- `loadSessionInfo`: validate the id, then fail with `notFound` when the
metadata file is absent, else return the parsed record. -/
def loadSessionInfo (fs : FS) (sessionId : String) : Except CmdError SessionInfo :=
  if validateSessionId sessionId = false then .error (.invalidId sessionId)
  else
    match fs.info sessionId with
    | none => .error (.notFound sessionId)
    | some info => .ok info

/-- `closeSession`: validate, load, set `status := "closed"` and
`closedAt := now`, rewrite the record. `now` is the value of `Date.now()` at
the call. -/
def closeSession (fs : FS) (sessionId : String) (now : Nat) : Except CmdError FS :=
  if validateSessionId sessionId = false then .error (.invalidId sessionId)
  else
    match loadSessionInfo fs sessionId with
    | .error e => .error e
    | .ok info =>
      saveSessionInfo fs { info with status := some "closed", closedAt := some now } |> .ok

/-- `purgeSession`: validate, then unlink the metadata file and the
transcript file, each only if present. -/
def purgeSession (fs : FS) (sessionId : String) : Except CmdError FS :=
  if validateSessionId sessionId = false then .error (.invalidId sessionId)
  else
    let fs1 := if (fs.info sessionId).isSome then
        { fs with info := Function.update fs.info sessionId none } else fs
    let fs2 := if (fs1.transcript sessionId).isSome then
        { fs1 with transcript := Function.update fs1.transcript sessionId none } else fs1
    .ok fs2

/-- The `status` column printed by `cmdList`:
`info.status === "closed" ? "closed" : "active"`. -/
def displayStatus (info : SessionInfo) : String :=
  if info.status = some "closed" then "closed" else "active"

/-! ### cmdStart -/

/-- The default read-only tool allowlist. -/
def DEFAULT_TOOLS : String := "read,grep,find,ls"

/-- Options of `cmdStart`; the empty string models an absent (falsy) option,
matching how `main` passes unset flags through. -/
structure StartOptions where
  model : String
  thinking : String := ""
  tools : String := ""
  name : String := ""
deriving Repr

/-- The session-id selection of `cmdStart`: a falsy (empty) name falls back
to the generated `uuid`; a given name is validated (`validateSessionName`:
regex, then the 64-character cap) and then checked for a collision with an
existing metadata file (`fs.existsSync(existingPath)`). -/
def chooseSessionId (fs : FS) (name uuid : String) : Except CmdError String :=
  if name = "" then .ok uuid
  else if validateSessionId name = false then .error (.invalidName name)
  else if 64 < name.length then .error (.nameTooLong name)
  else if (fs.info name).isSome then .error (.alreadyExists name)
  else .ok name

/-- `cmdStart`: parse the model string on `:` (reject when there is no
colon), choose and validate the session id, then persist the new record
keyed by that id. `uuid` stands for the `crypto.randomUUID()` value used
when no name is given; `now` is `Date.now()`. -/
def cmdStart (fs : FS) (options : StartOptions) (uuid : String) (now : Nat) :
    Except CmdError (String × FS) :=
  let modelParts := jsSplit options.model ':'
  if modelParts.length < 2 then .error (.invalidModel options.model)
  else
    let provider := modelParts.headD ""
    let modelId := String.intercalate ":" (modelParts.drop 1)
    match chooseSessionId fs options.name uuid with
    | .error e => .error e
    | .ok sessionId =>
      let info : SessionInfo :=
        { id := sessionId
          model := options.model
          provider := provider
          modelId := modelId
          thinking := if options.thinking = "" then none else some options.thinking
          tools := if options.tools = "" then DEFAULT_TOOLS else options.tools
          sessionFile := getSessionFilePath sessionId
          createdAt := now }
      .ok (sessionId, saveSessionInfo fs info)

/-- The state of the session directory after a `closeSession` call (the call
mutates nothing when it throws). -/
def fsAfterClose (fs : FS) (sessionId : String) (now : Nat) : FS :=
  match closeSession fs sessionId now with
  | .ok fs1 => fs1
  | .error _ => fs

/-- The state of the session directory after a `purgeSession` call. -/
def fsAfterPurge (fs : FS) (sessionId : String) : FS :=
  match purgeSession fs sessionId with
  | .ok fs1 => fs1
  | .error _ => fs

/-- The state of the session directory after a `cmdStart` call. -/
def fsAfterStart (fs : FS) (options : StartOptions) (uuid : String) (now : Nat) : FS :=
  match cmdStart fs options uuid now with
  | .ok (_, fs1) => fs1
  | .error _ => fs

/-- The session id returned by a successful `cmdStart`. -/
def startedId (fs : FS) (options : StartOptions) (uuid : String) (now : Nat) : Option String :=
  (cmdStart fs options uuid now).toOption.map Prod.fst

/-- The record persisted by a successful `cmdStart`, looked up at the
returned id. -/
def startedInfo (fs : FS) (options : StartOptions) (uuid : String) (now : Nat) :
    Option SessionInfo :=
  match cmdStart fs options uuid now with
  | .ok (sid, fs1) => fs1.info sid
  | .error _ => none

/-! ### sendToAgent: streaming accumulation and the agent_end handler -/

/-- `extractTextFromMessage`: fallback extraction of text from an assistant
message when streaming produced nothing. A plain-string content is used
as-is; array content keeps the parts whose `type` is `"text"` and whose
`text` field is a string, and joins their texts with a blank line; any other
shape (or no message at all) yields the empty string. -/
def extractTextFromMessage (message : Option Message) : String :=
  match message with
  | none => ""
  | some m =>
    match m.content with
    | .str s => s
    | .parts l =>
      String.intercalate "\n\n"
        ((l.filter fun c => c.type = some "text" && c.text.isSome).filterMap fun c => c.text)
    | .other => ""

/-- `[...agentMessages].reverse().find((m) => m?.role === "assistant")`: the
last assistant-authored message of the terminal message list. -/
def lastAssistant (agentMessages : List Message) : Option Message :=
  agentMessages.reverse.find? fun m => m.role = "assistant"

/-- One iteration of the usage accumulation loop of the `agent_end` handler:
a message contributes only when its role is `assistant` and it carries a
`usage` object, and then adds its `input`, `output` and `cost.total` fields
(absent fields count as 0, matching the `|| 0` guards). -/
def usageStep (u : SendUsage) (msg : Message) : SendUsage :=
  if msg.role = "assistant" then
    match msg.usage with
    | some mu =>
      { input := u.input + mu.input.getD 0
        output := u.output + mu.output.getD 0
        cost := u.cost + (mu.cost.bind Cost.total).getD 0 }
    | none => u
  else u

/-- The usage accumulation loop of the `agent_end` handler, starting from
`{input: 0, output: 0, cost: 0}` and running over the whole terminal
message list. -/
def accumulateUsage (agentMessages : List Message) : SendUsage :=
  agentMessages.foldl usageStep { input := 0, output := 0, cost := 0 }

/-- The mutable turn state of `sendToAgent` that the line handler updates:
the accumulated streamed text, the computed usage, the captured terminal
message list, and the `finished` flag. -/
structure LoopState where
  responseText : String := ""
  usage : Option SendUsage := none
  agentMessages : List Message := []
  finished : Bool := false
deriving Repr

/-- The turn state at the start of a turn. -/
def initLoopState : LoopState := {}

/-- The `rl.on("line", ...)` handler restricted to its effect on the turn
state: `text_delta` appends to the accumulated text; `agent_end` captures
the message list, computes usage, applies the streaming-empty fallback and
marks the turn finished; every other event leaves the state unchanged (its
effects are rejections, timers or progress reports, modelled separately). -/
def handleEvent (s : LoopState) (e : Event) : LoopState :=
  match e with
  | .message_update (some (.text_delta delta)) =>
    { s with responseText := s.responseText ++ delta }
  | .agent_end msgs =>
    let u := accumulateUsage msgs
    let rt :=
      if jsTrim s.responseText = "" then extractTextFromMessage (lastAssistant msgs)
      else s.responseText
    { responseText := rt, usage := some u, agentMessages := msgs, finished := true }
  | _ => s

/-- The `response` field returned by `sendToAgent`: the turn state's text,
trimmed (`responseText.trim()`). -/
def sendResponse (s : LoopState) : String := jsTrim s.responseText

/-! ### Sliding inactivity timeout -/

/-- Whether the line handler calls `resetTimeout()` for an event: exactly the
`text_delta` and `thinking_delta` updates and the three tool-execution
events do; nothing else rearms the inactivity timer. -/
def rearmsTimeout : Event → Bool
  | .message_update (some (.text_delta _)) => true
  | .message_update (some .thinking_delta) => true
  | .tool_execution_start _ _ => true
  | .tool_execution_update => true
  | .tool_execution_end => true
  | _ => false

/-- The inactivity deadline after processing a trace of timestamped events:
armed at `armTime + timeout` when the timer is created, and rearmed to
`t + timeout` by every event at time `t` for which the handler calls
`resetTimeout()`. -/
def deadlineAfter (armTime timeout : Nat) (trace : List (Nat × Event)) : Nat :=
  trace.foldl (fun d te => if rearmsTimeout te.2 then te.1 + timeout else d)
    (armTime + timeout)

/-- The time of the `i`-th arrival: the timestamp of the `i`-th trace event,
or the turn's completion time `tEnd` once the trace is exhausted. -/
def nextArrival (trace : List (Nat × Event)) (tEnd : Nat) (i : Nat) : Nat :=
  match trace.get? i with
  | some te => te.1
  | none => tEnd

/-- Whether the inactivity timer fires during a turn whose events are `trace`
(timestamps nondecreasing) and that would otherwise complete at `tEnd`: it
fires exactly when some arrival comes strictly later than the deadline in
force just before it. -/
def timesOutWithin (armTime timeout : Nat) (trace : List (Nat × Event)) (tEnd : Nat) : Bool :=
  (List.range (trace.length + 1)).any fun i =>
    decide (deadlineAfter armTime timeout (trace.take i) < nextArrival trace tEnd i)

/-! ### Terminal cleanup -/

/-- The ways a turn can end: `agent_end` success, a protocol abort
(hook error, streaming error, errored message, untracked failing response),
a deadline expiry, or the subordinate process exiting early. -/
inductive Outcome where
  | success
  | protocolAbort
  | timeoutErr
  | processExit
deriving Repr, DecidableEq

/-- The resources of one turn: whether the progress file exists, whether the
sliding timer is armed, whether the line decoder and the command input are
open, whether SIGTERM has been sent, and how many times the cleanup block
has run. -/
structure TurnState where
  progressPresent : Bool := false
  timerArmed : Bool := false
  decoderOpen : Bool := false
  stdinOpen : Bool := false
  termSignalSent : Bool := false
  cleanupCount : Nat := 0
deriving Repr, DecidableEq

/-- The turn resources right after `sendToAgent` sets up: progress written
(`writeProgress({status: "thinking"})`), timer armed (`timeoutPromise`),
line reader and stdin open, no signal sent yet. -/
def initTurnState : TurnState :=
  { progressPresent := true, timerArmed := true, decoderOpen := true, stdinOpen := true }

/-- Whether the line handler calls `writeProgress` for an event: exactly the
`text_delta` update (status `streaming`), the `thinking_delta` update
(status `thinking`) and `tool_execution_start` (status `tool`) do. -/
def writesProgress : Event → Bool
  | .message_update (some (.text_delta _)) => true
  | .message_update (some .thinking_delta) => true
  | .tool_execution_start _ _ => true
  | _ => false

/-- The effect of one handled event on the turn resources: the deltas and
`tool_execution_start` rewrite the progress file; nothing in the handler
closes a resource or sends a signal. -/
def stepEvent (s : TurnState) (e : Event) : TurnState :=
  if writesProgress e then { s with progressPresent := true } else s

/-- The `finally` block of `sendToAgent`: `clearTimeout`, `clearProgress`,
`rl.close()`, `proc.stdin.end()`, `proc.kill("SIGTERM")`. -/
def cleanup (s : TurnState) : TurnState :=
  { progressPresent := false
    timerArmed := false
    decoderOpen := false
    stdinOpen := false
    termSignalSent := true
    cleanupCount := s.cleanupCount + 1 }

/-- One whole turn as seen by the resource model: the handler runs over the
event trace, then the `finally` block runs once on the way out — on every
path, whichever `outcome` the body produced. -/
def runTurn (events : List Event) (outcome : Outcome) : Outcome × TurnState :=
  (outcome, cleanup (events.foldl stepEvent initTurnState))

/-! ## Theorems -/

/-! ### C1: usage accumulation sums over every assistant message -/

/-- The `input` usage carried by one message (0 when absent). -/
def inputOf (m : Message) : ℚ :=
  match m.usage with
  | some mu => mu.input.getD 0
  | none => 0

/-- The `output` usage carried by one message (0 when absent). -/
def outputOf (m : Message) : ℚ :=
  match m.usage with
  | some mu => mu.output.getD 0
  | none => 0

/-- The `cost.total` usage carried by one message (0 when absent). -/
def costOf (m : Message) : ℚ :=
  match m.usage with
  | some mu => (mu.cost.bind Cost.total).getD 0
  | none => 0

/-- Sum of the `input` fields across every assistant-authored message of a
message list (the spec's description of the usage accumulation rule). -/
def assistantInputSum (msgs : List Message) : ℚ :=
  ((msgs.filter fun m => m.role = "assistant").map inputOf).sum

/-- Sum of the `output` fields across every assistant-authored message. -/
def assistantOutputSum (msgs : List Message) : ℚ :=
  ((msgs.filter fun m => m.role = "assistant").map outputOf).sum

/-- Sum of the `cost.total` fields across every assistant-authored message. -/
def assistantCostSum (msgs : List Message) : ℚ :=
  ((msgs.filter fun m => m.role = "assistant").map costOf).sum

theorem usage_foldl (msgs : List Message) : ∀ u : SendUsage,
    msgs.foldl usageStep u =
      { input := u.input + assistantInputSum msgs
        output := u.output + assistantOutputSum msgs
        cost := u.cost + assistantCostSum msgs } := by
  induction msgs with
  | nil =>
    intro u
    simp [assistantInputSum, assistantOutputSum, assistantCostSum]
  | cons m rest ih =>
    intro u
    by_cases h : m.role = "assistant"
    · cases hu : m.usage with
      | none =>
        rw [List.foldl_cons, ih]
        simp [usageStep, h, hu, assistantInputSum, assistantOutputSum, assistantCostSum,
          List.filter_cons, inputOf, outputOf, costOf]
      | some mu =>
        rw [List.foldl_cons, ih]
        simp [usageStep, h, hu, assistantInputSum, assistantOutputSum, assistantCostSum,
          List.filter_cons, inputOf, outputOf, costOf, add_assoc]
    · rw [List.foldl_cons, ih]
      simp [usageStep, h, assistantInputSum, assistantOutputSum, assistantCostSum,
        List.filter_cons]

/-- Claim C1: on `agent_end`, the computed usage sums the `input`, `output`
and `cost.total` fields across every assistant-authored message of the
terminal message list (not only the last one); in particular two assistant
messages with usage `{input:10, output:5, cost:{total:0.01}}` and
`{input:20, output:8, cost:{total:0.02}}` accumulate to
`{input:30, output:13, cost:0.03}`. -/
theorem usage_sums_all_assistant_messages :
    (∀ msgs : List Message,
      accumulateUsage msgs =
        { input := assistantInputSum msgs
          output := assistantOutputSum msgs
          cost := assistantCostSum msgs })
    ∧ accumulateUsage
        [ { role := "assistant"
            usage := some { input := some 10, output := some 5, cost := some { total := some 0.01 } } },
          { role := "assistant"
            usage := some { input := some 20, output := some 8, cost := some { total := some 0.02 } } } ]
      = { input := 30, output := 13, cost := 0.03 } := by
  constructor
  · intro msgs
    rw [accumulateUsage, usage_foldl]
    simp
  · rw [accumulateUsage]
    norm_num [usageStep, List.foldl_cons, List.foldl_nil]

/-! ### C4: terminal cleanup runs exactly once on every outcome -/

theorem foldl_stepEvent_cleanupCount (events : List Event) :
    ∀ s : TurnState, (events.foldl stepEvent s).cleanupCount = s.cleanupCount := by
  induction events with
  | nil => intro s; rfl
  | cons e rest ih =>
    intro s
    rw [List.foldl_cons, ih]
    unfold stepEvent
    split <;> rfl

/-- Claim C4: for every terminal outcome of a turn (success, protocol abort,
timeout, subordinate process exit) the same cleanup runs exactly once — the
timer is cancelled, the progress record is deleted, the decoder is stopped,
the command input is closed and SIGTERM is sent — and the resulting resource
state does not depend on which outcome ended the turn; in particular the
progress file is absent immediately after every terminal outcome. -/
theorem terminal_cleanup_runs_once :
    ∀ (events : List Event) (outcome : Outcome),
      (runTurn events outcome).2.progressPresent = false
      ∧ (runTurn events outcome).2.timerArmed = false
      ∧ (runTurn events outcome).2.decoderOpen = false
      ∧ (runTurn events outcome).2.stdinOpen = false
      ∧ (runTurn events outcome).2.termSignalSent = true
      ∧ (runTurn events outcome).2.cleanupCount = 1
      ∧ ∀ o2 : Outcome, (runTurn events outcome).2 = (runTurn events o2).2 := by
  intro events outcome
  refine ⟨rfl, rfl, rfl, rfl, rfl, ?_, fun o2 => rfl⟩
  show (cleanup (events.foldl stepEvent initTurnState)).cleanupCount = 1
  rw [cleanup]
  rw [foldl_stepEvent_cleanupCount]
  rfl

/-! ### C2: streaming-empty fallback and trimming of the response -/

theorem filter_text_parts_eq_filterMap (l : List ContentPart) :
    ((l.filter fun c => c.type = some "text" && c.text.isSome).filterMap fun c => c.text)
      = l.filterMap fun c => if c.type = some "text" then c.text else none := by
  induction l with
  | nil => rfl
  | cons c rest ih =>
    by_cases ht : c.type = some "text"
    · cases hx : c.text with
      | none => simp [List.filter_cons, List.filterMap_cons, ht, hx, ih]
      | some s => simp [List.filter_cons, List.filterMap_cons, ht, hx, ih]
    · simp [List.filter_cons, List.filterMap_cons, ht, ih]

/-- Claim C2: at `agent_end`, if the accumulated streamed text is empty or
whitespace-only, the response is extracted from the content of the last
assistant-authored message of the terminal list — used as-is for a plain
string content, the texts of the parts tagged `text` joined by a blank line
for an array content, and the empty string for any other shape — and the
final response is always trimmed; if the accumulated streamed text is
non-whitespace it is returned (trimmed) regardless of the message list. -/
theorem response_fallback_extraction :
    (∀ (s : LoopState) (msgs : List Message),
      sendResponse (handleEvent s (.agent_end msgs)) =
        jsTrim (if jsTrim s.responseText = "" then extractTextFromMessage (lastAssistant msgs)
         else s.responseText))
    ∧ (∀ (s : LoopState) (msgs : List Message), jsTrim s.responseText ≠ "" →
        sendResponse (handleEvent s (.agent_end msgs)) = jsTrim s.responseText)
    ∧ (∀ (m : Message) (str : String), m.content = .str str →
        extractTextFromMessage (some m) = str)
    ∧ (∀ (m : Message) (l : List ContentPart), m.content = .parts l →
        extractTextFromMessage (some m) =
          String.intercalate "\n\n"
            (l.filterMap fun c => if c.type = some "text" then c.text else none))
    ∧ (∀ m : Message, m.content = .other → extractTextFromMessage (some m) = "")
    ∧ extractTextFromMessage none = "" := by
  refine ⟨fun s msgs => rfl, ?_, ?_, ?_, ?_, rfl⟩
  · intro s msgs h
    have h1 : sendResponse (handleEvent s (.agent_end msgs)) =
        jsTrim (if jsTrim s.responseText = "" then extractTextFromMessage (lastAssistant msgs)
         else s.responseText) := rfl
    rw [h1, if_neg h]
  · intro m str h
    simp [extractTextFromMessage, h]
  · intro m l h
    simp [extractTextFromMessage, h, filter_text_parts_eq_filterMap]
  · intro m h
    simp [extractTextFromMessage, h]

/-- Witness for C2: with no streamed text and a terminal list whose last
assistant message has content `[{type:"text", text:"Answer: 42"}]`, the
response is `"Answer: 42"`; with streamed deltas `"Hel"` then `"lo"`, the
response is `"Hello"` regardless of the terminal list. -/
theorem response_fallback_extraction_witness :
    sendResponse (handleEvent initLoopState
        (.agent_end
          [ { role := "assistant"
              content := .parts [{ type := some "text", text := some "Answer: 42" }] } ]))
      = "Answer: 42"
    ∧ sendResponse (handleEvent
        (handleEvent (handleEvent initLoopState (.message_update (some (.text_delta "Hel"))))
          (.message_update (some (.text_delta "lo"))))
        (.agent_end [{ role := "assistant", content := .str "ignored" }]))
      = "Hello" := by
  constructor
  · have h := response_fallback_extraction.1 initLoopState
      [ { role := "assistant"
          content := .parts [{ type := some "text", text := some "Answer: 42" }] } ]
    rw [h]
    decide
  · have h := response_fallback_extraction.2.1
      (handleEvent (handleEvent initLoopState (.message_update (some (.text_delta "Hel"))))
        (.message_update (some (.text_delta "lo"))))
      [{ role := "assistant", content := .str "ignored" }]
      (by decide)
    rw [h]
    decide

/-! ### C3: sliding inactivity deadline -/

theorem noTimeout_aux (timeout : Nat) :
    ∀ (trace : List (Nat × Event)) (armTime tEnd : Nat),
      (∀ te ∈ trace, rearmsTimeout te.2 = true) →
      List.Chain' (fun a b => b ≤ a + timeout) (armTime :: (trace.map Prod.fst ++ [tEnd])) →
      ∀ i, i ≤ trace.length →
        nextArrival trace tEnd i ≤ deadlineAfter armTime timeout (trace.take i) := by
  intro trace
  induction trace with
  | nil =>
    intro armTime tEnd _ hchain i hi
    have hi0 : i = 0 := Nat.le_zero.mp hi
    subst hi0
    have h1 : tEnd ≤ armTime + timeout := by
      rw [List.map_nil, List.nil_append, List.chain'_pair] at hchain
      exact hchain
    simpa [nextArrival, deadlineAfter] using h1
  | cons te rest ih =>
    intro armTime tEnd hall hchain i hi
    obtain ⟨t, e⟩ := te
    have he : rearmsTimeout e = true := hall (t, e) (List.mem_cons_self _ _)
    have hall2 : ∀ x ∈ rest, rearmsTimeout x.2 = true := fun x hx =>
      hall x (List.mem_cons_of_mem _ hx)
    rw [List.map_cons, List.cons_append, List.chain'_cons] at hchain
    match i with
    | 0 =>
      simpa [nextArrival, deadlineAfter] using hchain.1
    | Nat.succ j =>
      have hj : j ≤ rest.length := by
        simpa [Nat.succ_le_succ_iff] using hi
      have e1 : nextArrival ((t, e) :: rest) tEnd (j + 1) = nextArrival rest tEnd j := by
        simp [nextArrival]
      have e2 : deadlineAfter armTime timeout (((t, e) :: rest).take (j + 1))
          = deadlineAfter t timeout (rest.take j) := by
        simp [deadlineAfter, he]
      rw [e1, e2]
      exact ih t tEnd hall2 hchain.2 j hj

theorem deadlineAfter_foldl_le (timeout a : Nat) :
    ∀ (trace : List (Nat × Event)) (d : Nat), d ≤ a + timeout →
      (∀ te ∈ trace, te.1 ≤ a) →
      trace.foldl (fun d te => if rearmsTimeout te.2 then te.1 + timeout else d) d
        ≤ a + timeout := by
  intro trace
  induction trace with
  | nil =>
    intro d hd _
    simpa using hd
  | cons te rest ih =>
    intro d hd hall
    rw [List.foldl_cons]
    apply ih
    · by_cases h : rearmsTimeout te.2 = true
      · simp only [h, if_true]
        exact Nat.add_le_add_right (hall te (List.mem_cons_self _ _)) timeout
      · simp only [Bool.not_eq_true] at h
        simpa [h] using hd
    · exact fun x hx => hall x (List.mem_cons_of_mem _ hx)

/-- Claim C3: every protocol activity event (`text_delta`, `thinking_delta`,
`tool_execution_start`, `tool_execution_update`, `tool_execution_end`) —
and only those — rearms the inactivity deadline to now plus the configured
timeout; a turn in which each arrival (including completion) comes within
one timeout of the previous rearming point never times out on inactivity,
while a turn with no activity for longer than the timeout after the prompt
acknowledgment fails on the inactivity deadline. -/
theorem sliding_inactivity_deadline :
    (∀ (timeout armTime tEnd : Nat) (trace : List (Nat × Event)),
      (∀ te ∈ trace, rearmsTimeout te.2 = true) →
      List.Chain' (fun a b => b ≤ a + timeout) (armTime :: (trace.map Prod.fst ++ [tEnd])) →
      timesOutWithin armTime timeout trace tEnd = false)
    ∧ (∀ (timeout armTime ack tEnd : Nat) (trace : List (Nat × Event)),
      armTime ≤ ack → (∀ te ∈ trace, te.1 ≤ ack) → ack + timeout < tEnd →
      timesOutWithin armTime timeout trace tEnd = true)
    ∧ (∀ e : Event, rearmsTimeout e = true ↔
        ((∃ d, e = .message_update (some (.text_delta d)))
          ∨ e = .message_update (some .thinking_delta)
          ∨ (∃ n a, e = .tool_execution_start n a)
          ∨ e = .tool_execution_update
          ∨ e = .tool_execution_end)) := by
  refine ⟨?_, ?_, ?_⟩
  · intro timeout armTime tEnd trace hall hchain
    rw [timesOutWithin, List.any_eq_false]
    intro i hi
    rw [List.mem_range] at hi
    have h := noTimeout_aux timeout trace armTime tEnd hall hchain i (Nat.lt_succ_iff.mp hi)
    simpa [Nat.not_lt] using h
  · intro timeout armTime ack tEnd trace h1 h2 h3
    rw [timesOutWithin, List.any_eq_true]
    refine ⟨trace.length, List.mem_range.mpr (Nat.lt_succ_self _), ?_⟩
    rw [decide_eq_true_eq, List.take_length]
    have hd : deadlineAfter armTime timeout trace ≤ ack + timeout := by
      apply deadlineAfter_foldl_le
      · exact Nat.add_le_add_right h1 timeout
      · exact h2
    have hget : trace.get? trace.length = none := List.get?_eq_none.mpr (Nat.le_refl _)
    have hn : nextArrival trace tEnd trace.length = tEnd := by
      simp [nextArrival, hget]
    rw [hn]
    omega
  · intro e
    cases e with
    | message_update d =>
      match d with
      | none => simp [rearmsTimeout]
      | some (.text_delta delta) => simp [rearmsTimeout]
      | some .thinking_delta => simp [rearmsTimeout]
      | some (.error r) => simp [rearmsTimeout]
    | response id success error => simp [rearmsTimeout]
    | message_end em => simp [rearmsTimeout]
    | tool_execution_start n a => simp [rearmsTimeout]
    | tool_execution_update => simp [rearmsTimeout]
    | tool_execution_end => simp [rearmsTimeout]
    | agent_end msgs => simp [rearmsTimeout]
    | hook_error err => simp [rearmsTimeout]
    | other => simp [rearmsTimeout]

/-- Witness for C3: with a 10-unit timeout armed at time 0, a turn whose
activity events arrive at times 6 and 12 and that completes at 20 never hits
the inactivity deadline, while a turn whose last activity is at time 3 and
that would complete at 20 does. -/
theorem sliding_inactivity_deadline_witness :
    timesOutWithin 0 10 [(6, .tool_execution_start "read" ""), (12, .tool_execution_update)] 20
      = false
    ∧ timesOutWithin 0 10 [(3, .tool_execution_end)] 20 = true := by
  constructor
  · exact sliding_inactivity_deadline.1 10 0 20 _ (by decide)
      (by norm_num [List.chain'_cons, List.chain'_pair])
  · exact sliding_inactivity_deadline.2.1 10 0 3 20 _ (by decide) (by decide) (by decide)

/-! ### C5: the record persisted by start carries no status field -/

theorem cmdStart_ok_cases :
    ∀ (fs : FS) (opts : StartOptions) (uuid : String) (now : Nat) (sid : String) (fs1 : FS),
      cmdStart fs opts uuid now = .ok (sid, fs1) →
      ∃ r : SessionInfo, r.id = sid ∧ r.status = none ∧ fs1 = saveSessionInfo fs r := by
  intro fs opts uuid now sid fs1 h
  by_cases hm : (jsSplit opts.model ':').length < 2
  · simp only [cmdStart] at h
    rw [if_pos hm] at h
    cases h
  · simp only [cmdStart] at h
    rw [if_neg hm] at h
    cases hcs : chooseSessionId fs opts.name uuid with
    | error e =>
      simp only [hcs] at h
      cases h
    | ok sessionId =>
      simp only [hcs] at h
      rw [Except.ok.injEq, Prod.mk.injEq] at h
      exact ⟨_, h.1, rfl, h.2.symm⟩

/-- Counterexample to claim C5 as stated: the record persisted by a concrete
successful `start` does not carry status `active` — it carries no status
field at all (`status = none`, never `some "active"`). -/
theorem start_status_field_absent :
    (startedInfo emptyFS { model := "a:b" } "u1" 0).isSome = true
    ∧ (startedInfo emptyFS { model := "a:b" } "u1" 0).bind SessionInfo.status = none
    ∧ ((startedInfo emptyFS { model := "a:b" } "u1" 0).bind SessionInfo.status
        = some "active") = False := by
  refine ⟨rfl, rfl, ?_⟩
  have h2 : (startedInfo emptyFS { model := "a:b" } "u1" 0).bind SessionInfo.status
      = none := rfl
  rw [h2]
  simp

/-- Claim C5 (amended): every successful `start` persists a record whose
`status` field is absent; the status derived from a record (as `list`
derives it) takes only the values `active` and `closed`, and for a freshly
started record it is `active`. -/
theorem start_persists_record_without_status :
    ∀ (fs : FS) (opts : StartOptions) (uuid : String) (now : Nat) (sid : String) (fs1 : FS),
      cmdStart fs opts uuid now = .ok (sid, fs1) →
      ((fs1.info sid).isSome = true
        ∧ (fs1.info sid).bind SessionInfo.status = none
        ∧ (fs1.info sid).map displayStatus = some "active")
      ∧ ∀ r2 : SessionInfo, displayStatus r2 = "active" ∨ displayStatus r2 = "closed" := by
  intro fs opts uuid now sid fs1 h
  obtain ⟨r, hid, hs, hfs⟩ := cmdStart_ok_cases fs opts uuid now sid fs1 h
  constructor
  · have hlook : fs1.info sid = some r := by
      rw [hfs, saveSessionInfo, hid]
      exact Function.update_same _ _ _
    rw [hlook]
    refine ⟨rfl, by simp [hs], ?_⟩
    simp [displayStatus, hs]
  · intro r2
    by_cases h2 : r2.status = some "closed"
    · right; simp [displayStatus, h2]
    · left; simp [displayStatus, h2]

/-- Witness for the amended C5: a concrete `start` persists a record with no
status field whose derived display status is `active`. -/
theorem start_persists_record_without_status_witness :
    ((fsAfterStart emptyFS { model := "a:b" } "u1" 0).info "u1").isSome = true
    ∧ ((fsAfterStart emptyFS { model := "a:b" } "u1" 0).info "u1").bind SessionInfo.status
        = none
    ∧ ((fsAfterStart emptyFS { model := "a:b" } "u1" 0).info "u1").map displayStatus
        = some "active" := by
  have h := start_persists_record_without_status emptyFS { model := "a:b" } "u1" 0 "u1"
    (fsAfterStart emptyFS { model := "a:b" } "u1" 0) rfl
  exact h.1

/-! ### C6: end is idempotent in effect -/

/-- Claim C6: `end` on an existing session rewrites only that session's
record, flipping `status` to `closed` and setting `closedAt`; it touches no
transcript file and no other record, and it is idempotent in effect — a
second `close` produces exactly the state a single `close` at the second
call's time would. -/
theorem end_idempotent :
    ∀ (fs : FS) (sid : String) (now1 now2 : Nat) (info : SessionInfo),
      fs.info sid = some info → info.id = sid → validateSessionId sid = true →
      closeSession fs sid now1
          = .ok (saveSessionInfo fs { info with status := some "closed", closedAt := some now1 })
      ∧ (fsAfterClose fs sid now1).info sid
          = some { info with status := some "closed", closedAt := some now1 }
      ∧ (fsAfterClose fs sid now1).transcript = fs.transcript
      ∧ (∀ k, k ≠ sid → (fsAfterClose fs sid now1).info k = fs.info k)
      ∧ closeSession (fsAfterClose fs sid now1) sid now2 = closeSession fs sid now2 := by
  intro fs sid now1 now2 info hinfo hid hvalid
  have hvf : ¬(validateSessionId sid = false) := by simp [hvalid]
  have hload : loadSessionInfo fs sid = .ok info := by
    unfold loadSessionInfo
    rw [if_neg hvf, hinfo]
  have hid1 : ({ info with status := some "closed", closedAt := some now1 } : SessionInfo).id
      = sid := hid
  have hid2 : ({ info with status := some "closed", closedAt := some now2 } : SessionInfo).id
      = sid := hid
  have hclose1 : closeSession fs sid now1
      = .ok (saveSessionInfo fs { info with status := some "closed", closedAt := some now1 }) := by
    unfold closeSession
    rw [if_neg hvf, hload]
  have hfs1 : fsAfterClose fs sid now1
      = saveSessionInfo fs { info with status := some "closed", closedAt := some now1 } := by
    unfold fsAfterClose
    rw [hclose1]
  have hlook : (fsAfterClose fs sid now1).info sid
      = some { info with status := some "closed", closedAt := some now1 } := by
    rw [hfs1]
    unfold saveSessionInfo
    show Function.update fs.info _ _ sid = _
    rw [hid1]
    exact Function.update_same _ _ _
  have hload2 : loadSessionInfo (fsAfterClose fs sid now1) sid
      = .ok { info with status := some "closed", closedAt := some now1 } := by
    unfold loadSessionInfo
    rw [if_neg hvf, hlook]
  refine ⟨hclose1, hlook, ?_, ?_, ?_⟩
  · rw [hfs1]; rfl
  · intro k hk
    rw [hfs1]
    unfold saveSessionInfo
    show Function.update fs.info _ _ k = _
    rw [hid1]
    exact Function.update_noteq hk _ _
  · have hclose2 : closeSession (fsAfterClose fs sid now1) sid now2
        = .ok (saveSessionInfo (fsAfterClose fs sid now1)
            { info with status := some "closed", closedAt := some now2 }) := by
      unfold closeSession
      rw [if_neg hvf, hload2]
    have hclose3 : closeSession fs sid now2
        = .ok (saveSessionInfo fs { info with status := some "closed", closedAt := some now2 }) := by
      unfold closeSession
      rw [if_neg hvf, hload]
    rw [hclose2, hclose3]
    congr 1
    apply FS.ext
    · rw [hfs1]
      unfold saveSessionInfo
      show Function.update (Function.update fs.info _ _) _ _ = Function.update fs.info _ _
      exact Function.update_idem _ _ _
    · rw [hfs1]; rfl

/-- A concrete active session record, used by witnesses. -/
def crec : SessionInfo :=
  { id := "s1", model := "a:b", provider := "a", modelId := "b",
    tools := DEFAULT_TOOLS, sessionFile := getSessionFilePath "s1", createdAt := 0 }

/-- A concrete session directory holding `crec` and its transcript. -/
def cfs : FS :=
  { info := fun k => if k = "s1" then some crec else none
    transcript := fun k => if k = "s1" then some "log" else none }

/-- Witness for C6: closing the concrete session `s1` at time 7 rewrites its
record with `status = closed` and `closedAt = 7`, leaves transcripts alone,
and closing again at time 9 equals a single close at time 9. -/
theorem end_idempotent_witness :
    (fsAfterClose cfs "s1" 7).info "s1"
        = some { crec with status := some "closed", closedAt := some 7 }
    ∧ (fsAfterClose cfs "s1" 7).transcript = cfs.transcript
    ∧ closeSession (fsAfterClose cfs "s1" 7) "s1" 9 = closeSession cfs "s1" 9 := by
  have h := end_idempotent cfs "s1" 7 9 crec rfl rfl rfl
  exact ⟨h.2.1, h.2.2.1, h.2.2.2.2⟩

/-! ### C7: invalid ids are rejected before any filesystem access -/

/-- Counterexample to claim C7 as stated: the empty string does not match
`[A-Za-z0-9_-]+`, yet `start` with name `""` is not rejected — a falsy name
is treated as no name at all, the id falls back to the generated token, and
a record is created (a filesystem mutation). -/
theorem empty_name_not_rejected :
    validateSessionId "" = false
    ∧ (cmdStart emptyFS { model := "a:b", name := "" } "u1" 0).isOk = true
    ∧ ((fsAfterStart emptyFS { model := "a:b", name := "" } "u1" 0).info "u1").isSome
        = true := by
  exact ⟨rfl, rfl, rfl⟩

/-- Claim C7 (amended): every string failing the `[A-Za-z0-9_-]+` regex is
rejected with a validation error — and with no filesystem mutation — by
`load` (and hence `send`), `close` (`end`) and `purge`; `start` with such a
string as name also rejects it provided the name is non-empty (an empty
name is treated as absent and falls back to a generated id), and a valid
name longer than 64 characters is rejected by `start` as well. -/
theorem invalid_id_rejected :
    (∀ (s : String) (fs : FS) (now : Nat),
      validateSessionId s = false →
      loadSessionInfo fs s = .error (.invalidId s)
      ∧ closeSession fs s now = .error (.invalidId s)
      ∧ fsAfterClose fs s now = fs
      ∧ purgeSession fs s = .error (.invalidId s)
      ∧ fsAfterPurge fs s = fs)
    ∧ (∀ (s m uuid : String) (fs : FS) (now : Nat),
      validateSessionId s = false → s ≠ "" → ¬(jsSplit m ':').length < 2 →
      cmdStart fs { model := m, name := s } uuid now = .error (.invalidName s)
      ∧ fsAfterStart fs { model := m, name := s } uuid now = fs)
    ∧ (∀ (s m uuid : String) (fs : FS) (now : Nat),
      validateSessionId s = true → 64 < s.length → ¬(jsSplit m ':').length < 2 →
      cmdStart fs { model := m, name := s } uuid now = .error (.nameTooLong s)
      ∧ fsAfterStart fs { model := m, name := s } uuid now = fs) := by
  refine ⟨?_, ?_, ?_⟩
  · intro s fs now h
    have hl : loadSessionInfo fs s = .error (.invalidId s) := by
      unfold loadSessionInfo
      rw [if_pos h]
    have hc : closeSession fs s now = .error (.invalidId s) := by
      unfold closeSession
      rw [if_pos h]
    have hp : purgeSession fs s = .error (.invalidId s) := by
      unfold purgeSession
      rw [if_pos h]
    refine ⟨hl, hc, ?_, hp, ?_⟩
    · unfold fsAfterClose
      rw [hc]
    · unfold fsAfterPurge
      rw [hp]
  · intro s m uuid fs now hs hne hm
    have hcs : chooseSessionId fs s uuid = .error (.invalidName s) := by
      unfold chooseSessionId
      rw [if_neg hne, if_pos hs]
    have hstart : cmdStart fs { model := m, name := s } uuid now = .error (.invalidName s) := by
      simp only [cmdStart]
      rw [if_neg hm, hcs]
    refine ⟨hstart, ?_⟩
    unfold fsAfterStart
    rw [hstart]
  · intro s m uuid fs now hs hlen hm
    have hne : s ≠ "" := by
      intro h0
      rw [h0] at hs
      exact absurd hs (by decide)
    have hsf : ¬(validateSessionId s = false) := by simp [hs]
    have hcs : chooseSessionId fs s uuid = .error (.nameTooLong s) := by
      unfold chooseSessionId
      rw [if_neg hne, if_neg hsf, if_pos hlen]
    have hstart : cmdStart fs { model := m, name := s } uuid now = .error (.nameTooLong s) := by
      simp only [cmdStart]
      rw [if_neg hm, hcs]
    refine ⟨hstart, ?_⟩
    unfold fsAfterStart
    rw [hstart]

/-- A 65-character (valid but over-long) session name. -/
def longName : String := String.mk (List.replicate 65 'a')

/-- Witness for the amended C7: the invalid id `"bad id!"` is rejected by
load, close, purge and named start, and the over-long `longName` is
rejected by named start, all against the concrete store `cfs`. -/
theorem invalid_id_rejected_witness :
    loadSessionInfo cfs "bad id!" = .error (.invalidId "bad id!")
    ∧ closeSession cfs "bad id!" 3 = .error (.invalidId "bad id!")
    ∧ purgeSession cfs "bad id!" = .error (.invalidId "bad id!")
    ∧ cmdStart cfs { model := "a:b", name := "bad id!" } "u1" 3
        = .error (.invalidName "bad id!")
    ∧ cmdStart cfs { model := "a:b", name := longName } "u1" 3
        = .error (.nameTooLong longName) := by
  have h1 := invalid_id_rejected.1 "bad id!" cfs 3 (by decide)
  have h2 := invalid_id_rejected.2.1 "bad id!" "a:b" "u1" cfs 3 (by decide) (by decide)
    (by decide)
  have h3 := invalid_id_rejected.2.2 longName "a:b" "u1" cfs 3 (by decide) (by decide)
    (by decide)
  exact ⟨h1.1, h1.2.1, h1.2.2.2.1, h2.1, h3.1⟩

/-! ### C8: name collision at creation time -/

/-- Claim C8: `start` with a caller-supplied (valid) name fails with a
collision error — creating nothing — exactly when a metadata record for that
name already exists; when none exists the record is created under that name,
this creation-time check being the only uniqueness enforcement. -/
theorem name_collision :
    ∀ (fs : FS) (m n uuid : String) (now : Nat),
      ¬(jsSplit m ':').length < 2 →
      validateSessionId n = true → n.length ≤ 64 →
      ((fs.info n).isSome = true →
        cmdStart fs { model := m, name := n } uuid now = .error (.alreadyExists n)
        ∧ fsAfterStart fs { model := m, name := n } uuid now = fs)
      ∧ ((fs.info n).isSome = false →
        startedId fs { model := m, name := n } uuid now = some n
        ∧ ((fsAfterStart fs { model := m, name := n } uuid now).info n).isSome = true) := by
  intro fs m n uuid now hm hv hlen
  have hne : n ≠ "" := by
    intro h0
    rw [h0] at hv
    exact absurd hv (by decide)
  have hvf : ¬(validateSessionId n = false) := by simp [hv]
  have hlf : ¬(64 < n.length) := Nat.not_lt.mpr hlen
  constructor
  · intro hex
    have hcs : chooseSessionId fs n uuid = .error (.alreadyExists n) := by
      unfold chooseSessionId
      rw [if_neg hne, if_neg hvf, if_neg hlf, if_pos hex]
    have hstart : cmdStart fs { model := m, name := n } uuid now
        = .error (.alreadyExists n) := by
      simp only [cmdStart]
      rw [if_neg hm, hcs]
    refine ⟨hstart, ?_⟩
    unfold fsAfterStart
    rw [hstart]
  · intro hnex
    have hexf : ¬((fs.info n).isSome = true) := by simp [hnex]
    have hcs : chooseSessionId fs n uuid = .ok n := by
      unfold chooseSessionId
      rw [if_neg hne, if_neg hvf, if_neg hlf, if_neg hexf]
    constructor
    · unfold startedId
      simp only [cmdStart]
      rw [if_neg hm, hcs]
      rfl
    · unfold fsAfterStart
      simp only [cmdStart]
      rw [if_neg hm, hcs]
      show ((saveSessionInfo fs _).info n).isSome = true
      unfold saveSessionInfo
      show (Function.update fs.info n _ n).isSome = true
      rw [Function.update_same]
      rfl

/-- Witness for C8: starting with the existing name `s1` against the store
`cfs` collides; starting with the fresh name `s2` creates a record under
`s2`. -/
theorem name_collision_witness :
    cmdStart cfs { model := "a:b", name := "s1" } "u1" 5 = .error (.alreadyExists "s1")
    ∧ startedId cfs { model := "a:b", name := "s2" } "u1" 5 = some "s2"
    ∧ ((fsAfterStart cfs { model := "a:b", name := "s2" } "u1" 5).info "s2").isSome
        = true := by
  have h1 := (name_collision cfs "a:b" "s1" "u1" 5 (by decide) (by decide) (by decide)).1
    (by decide)
  have h2 := (name_collision cfs "a:b" "s2" "u1" 5 (by decide) (by decide) (by decide)).2
    (by decide)
  exact ⟨h1.1, h2.1, h2.2⟩

/-! ### C9: purge is idempotent and total on valid ids -/

/-- Claim C9: for every valid session id, `purge` succeeds (whether or not
the metadata or transcript file exists), leaves both files absent, touches
no other session's files, and purging twice yields exactly the state of
purging once. -/
theorem purge_idempotent :
    ∀ (fs : FS) (sid : String),
      validateSessionId sid = true →
      purgeSession fs sid = .ok (fsAfterPurge fs sid)
      ∧ (fsAfterPurge fs sid).info sid = none
      ∧ (fsAfterPurge fs sid).transcript sid = none
      ∧ (∀ k, k ≠ sid →
          (fsAfterPurge fs sid).info k = fs.info k
          ∧ (fsAfterPurge fs sid).transcript k = fs.transcript k)
      ∧ purgeSession (fsAfterPurge fs sid) sid = .ok (fsAfterPurge fs sid) := by
  intro fs sid h
  have hvf : ¬(validateSessionId sid = false) := by simp [h]
  have hok : purgeSession fs sid = .ok (fsAfterPurge fs sid) := by
    unfold fsAfterPurge purgeSession
    rw [if_neg hvf]
  have hinfo : (fsAfterPurge fs sid).info sid = none := by
    unfold fsAfterPurge purgeSession
    rw [if_neg hvf]
    by_cases hi : (fs.info sid).isSome = true
    · by_cases ht : (fs.transcript sid).isSome = true
      · simp [hi, ht, Function.update_same]
      · simp [hi, ht, Function.update_same]
    · by_cases ht : (fs.transcript sid).isSome = true
      · simpa [hi, ht] using Option.not_isSome_iff_eq_none.mp hi
      · simpa [hi, ht] using Option.not_isSome_iff_eq_none.mp hi
  have htrans : (fsAfterPurge fs sid).transcript sid = none := by
    unfold fsAfterPurge purgeSession
    rw [if_neg hvf]
    by_cases hi : (fs.info sid).isSome = true
    · by_cases ht : (fs.transcript sid).isSome = true
      · simp [hi, ht, Function.update_same]
      · simpa [hi, ht] using Option.not_isSome_iff_eq_none.mp ht
    · by_cases ht : (fs.transcript sid).isSome = true
      · simp [hi, ht, Function.update_same]
      · simpa [hi, ht] using Option.not_isSome_iff_eq_none.mp ht
  have hother : ∀ k, k ≠ sid →
      (fsAfterPurge fs sid).info k = fs.info k
      ∧ (fsAfterPurge fs sid).transcript k = fs.transcript k := by
    intro k hk
    constructor
    · unfold fsAfterPurge purgeSession
      rw [if_neg hvf]
      by_cases hi : (fs.info sid).isSome = true
      · by_cases ht : (fs.transcript sid).isSome = true
        · simp [hi, ht, Function.update_noteq hk]
        · simp [hi, ht, Function.update_noteq hk]
      · by_cases ht : (fs.transcript sid).isSome = true
        · simp [hi, ht]
        · simp [hi, ht]
    · unfold fsAfterPurge purgeSession
      rw [if_neg hvf]
      by_cases hi : (fs.info sid).isSome = true
      · by_cases ht : (fs.transcript sid).isSome = true
        · simp [hi, ht, Function.update_noteq hk]
        · simp [hi, ht]
      · by_cases ht : (fs.transcript sid).isSome = true
        · simp [hi, ht, Function.update_noteq hk]
        · simp [hi, ht]
  refine ⟨hok, hinfo, htrans, hother, ?_⟩
  unfold purgeSession
  rw [if_neg hvf]
  simp [hinfo, htrans]

/-- Witness for C9: purging the concrete store `cfs` (which holds both files
for `s1`) succeeds and removes both, and purging again — as well as purging
an id with no files at all — succeeds without error. -/
theorem purge_idempotent_witness :
    purgeSession cfs "s1" = .ok (fsAfterPurge cfs "s1")
    ∧ (fsAfterPurge cfs "s1").info "s1" = none
    ∧ (fsAfterPurge cfs "s1").transcript "s1" = none
    ∧ purgeSession (fsAfterPurge cfs "s1") "s1" = .ok (fsAfterPurge cfs "s1")
    ∧ purgeSession emptyFS "absent" = .ok (fsAfterPurge emptyFS "absent") := by
  have h1 := purge_idempotent cfs "s1" (by decide)
  have h2 := purge_idempotent emptyFS "absent" (by decide)
  exact ⟨h1.1, h1.2.1, h1.2.2.1, h1.2.2.2.2, h2.1⟩

/-! ### C10: model-format validation only rejects strings with no colon -/

theorem splitChar_length (sep : Char) : ∀ l : List Char,
    (splitChar sep l).length = l.count sep + 1 := by
  intro l
  induction l with
  | nil => rfl
  | cons c rest ih =>
    by_cases hc : c = sep
    · simp [splitChar, hc, List.count_cons, ih]
    · cases hsp : splitChar sep rest with
      | nil =>
        rw [hsp] at ih
        simp at ih
      | cons g gs =>
        have hlen : gs.length + 1 = rest.count sep + 1 := by
          rw [hsp] at ih
          simpa using ih
        simp [splitChar, hc, hsp, List.count_cons]
        omega

theorem jsSplit_length (m : String) : (jsSplit m ':').length = m.data.count ':' + 1 := by
  unfold jsSplit
  rw [List.length_map, splitChar_length]

/-- Claim C10: model-format validation only rejects strings with no colon —
`start` succeeds exactly when the model string contains a colon; in
particular `"p:"` is accepted with provider `"p"` and empty `modelId`, and
`":m"` is accepted with empty provider and `modelId` `"m"`. -/
theorem model_format_validation :
    (∀ (fs : FS) (m uuid : String) (now : Nat),
      (cmdStart fs { model := m } uuid now).isOk = true ↔ ':' ∈ m.data)
    ∧ startedId emptyFS { model := "p:" } "u1" 0 = some "u1"
    ∧ (startedInfo emptyFS { model := "p:" } "u1" 0).map SessionInfo.provider = some "p"
    ∧ (startedInfo emptyFS { model := "p:" } "u1" 0).map SessionInfo.modelId = some ""
    ∧ startedId emptyFS { model := ":m" } "u1" 0 = some "u1"
    ∧ (startedInfo emptyFS { model := ":m" } "u1" 0).map SessionInfo.provider = some ""
    ∧ (startedInfo emptyFS { model := ":m" } "u1" 0).map SessionInfo.modelId = some "m" := by
  refine ⟨?_, rfl, rfl, rfl, rfl, rfl, rfl⟩
  intro fs m uuid now
  constructor
  · intro hok
    by_contra hmem
    have hc : m.data.count ':' = 0 := List.count_eq_zero.mpr hmem
    have hlen : (jsSplit m ':').length < 2 := by
      rw [jsSplit_length, hc]
      omega
    have herr : cmdStart fs { model := m } uuid now = .error (.invalidModel m) := by
      simp only [cmdStart]
      rw [if_pos hlen]
    rw [herr] at hok
    exact absurd hok (by simp [Except.isOk, Except.toBool])
  · intro hmem
    have hc : 0 < m.data.count ':' := List.count_pos_iff.mpr hmem
    have hlen : ¬(jsSplit m ':').length < 2 := by
      rw [jsSplit_length]
      omega
    have hcs : chooseSessionId fs "" uuid = .ok uuid := by
      unfold chooseSessionId
      rw [if_pos rfl]
    simp only [cmdStart]
    rw [if_neg hlen, hcs]
    rfl

end PiConsult
